import Mathlib

/-!
Verification of the `ChunkType` value type of the `png-rs` repository
(`src/chunk_type.rs`): construction from raw bytes (`TryFrom<[u8; 4]>`),
construction from text (`FromStr`), classification predicates, text
rendering (`Display`), and equality.

Bytes (`u8`) are modelled as `Nat` code values; text (`&str`) is modelled
as a list of Unicode scalar values (`List Char`), matching Rust's
`str::chars`, with the byte length computed from each scalar's UTF-8 size.
-/

/-- Rust `[u8; 4]`: a fixed-size sequence of 4 bytes. -/
structure Bytes4 where
  b0 : Nat
  b1 : Nat
  b2 : Nat
  b3 : Nat
deriving DecidableEq, Repr

/-- The 4 bytes in index order, for iteration (`bytes.iter()`). -/
def Bytes4.toList (bs : Bytes4) : List Nat := [bs.b0, bs.b1, bs.b2, bs.b3]

/-- Rust `u8::is_ascii_uppercase`: the range `b'A'..=b'Z'`. -/
def isAsciiUppercase (b : Nat) : Bool := 65 ≤ b && b ≤ 90

/-- Rust `u8::is_ascii_lowercase`: the range `b'a'..=b'z'`. -/
def isAsciiLowercase (b : Nat) : Bool := 97 ≤ b && b ≤ 122

/-- Rust `u8::is_ascii_alphabetic`: uppercase or lowercase letter. -/
def isAsciiAlphabetic (b : Nat) : Bool := isAsciiUppercase b || isAsciiLowercase b

/-- Rust `u8::is_ascii_digit`: the range `b'0'..=b'9'`. -/
def isAsciiDigit (b : Nat) : Bool := 48 ≤ b && b ≤ 57

/-- Rust `u8::is_ascii_alphanumeric`: letter or digit. -/
def isAsciiAlphanumeric (b : Nat) : Bool := isAsciiAlphabetic b || isAsciiDigit b

/-- Rust `struct ChunkType { bytes: [u8; 4] }` with derived `PartialEq`/`Eq`:
equality is the derived structural one. The `bytes()` accessor returns a copy
of the field, so the field projection models it. -/
structure ChunkType where
  bytes : Bytes4
deriving DecidableEq, Repr

/-- The error values the two constructors produce. In the source `Error` is a
boxed string; each constructor here stands for one `format!` call, carrying
exactly the data interpolated into its message. -/
inductive ChunkError where
  /-- message "Invalid chunk type: {bytes:?}" -/
  | invalidChunkType (bs : Bytes4)
  /-- message "Invalid string length. Expected 4, got {len:?}" -/
  | invalidStringLength (got : Nat)
  /-- message "The string contains non-ascii characters" -/
  | containsNonAscii
deriving DecidableEq, Repr

/-- `impl TryFrom<[u8; 4]> for ChunkType`: `Ok` when every byte satisfies
`is_ascii_alphabetic`, otherwise the `Invalid chunk type` error carrying the
rejected bytes. -/
def ChunkType.try_from (bs : Bytes4) : Except ChunkError ChunkType :=
  if bs.toList.all (fun b => isAsciiAlphabetic b) then
    Except.ok ⟨bs⟩
  else
    Except.error (ChunkError.invalidChunkType bs)

/-- Rust `str::is_ascii`: every byte of the text is below 128, equivalently
every scalar value is below 128. -/
def isAsciiText (s : List Char) : Bool := s.all (fun c => c.toNat ≤ 127)

/-- Number of bytes in the UTF-8 encoding of one scalar value; `str::len`
counts bytes of the UTF-8 encoded text. -/
def charUtf8Len (c : Nat) : Nat :=
  if c ≤ 0x7F then 1 else if c ≤ 0x7FF then 2 else if c ≤ 0xFFFF then 3 else 4

/-- Rust `str::len`: the byte length of the text. -/
def utf8Len (s : List Char) : Nat := (s.map (fun c => charUtf8Len c.toNat)).sum

/-- One slot written by the loop `for (i, c) in string.chars().enumerate()
{ bytes[i] = c as u8 }` over an array initialised to `[0; 4]`: the char at
index `i` truncated to its low 8 bits, or the initial 0 when the text is
shorter. (The success arm only reaches this with exactly 4 chars.) -/
def charByteAt (s : List Char) (i : Nat) : Nat :=
  match s.get? i with
  | some c => c.toNat % 256
  | none => 0

/-- The byte array the `FromStr` success arm builds from the text. -/
def copyChars (s : List Char) : Bytes4 :=
  { b0 := charByteAt s 0, b1 := charByteAt s 1
    b2 := charByteAt s 2, b3 := charByteAt s 3 }

/-- `impl FromStr for ChunkType`, including the source's pairing of match
arms with messages: the `(false, _)` arm (text not ASCII) produces the
`Invalid string length` message, and the `(_, false)` arm (ASCII text of
wrong length) produces the `non-ascii characters` message. -/
def ChunkType.from_str (s : List Char) : Except ChunkError ChunkType :=
  match isAsciiText s, utf8Len s == 4 with
  | true, true => Except.ok ⟨copyChars s⟩
  | false, _ => Except.error (ChunkError.invalidStringLength (utf8Len s))
  | _, false => Except.error ChunkError.containsNonAscii

/-- `is_critical`: byte 0 is ASCII uppercase. -/
def ChunkType.is_critical (ct : ChunkType) : Bool := isAsciiUppercase ct.bytes.b0

/-- `is_public`: byte 1 is ASCII uppercase. -/
def ChunkType.is_public (ct : ChunkType) : Bool := isAsciiUppercase ct.bytes.b1

/-- `is_reserved_bit_valid`: byte 2 is ASCII uppercase. -/
def ChunkType.is_reserved_bit_valid (ct : ChunkType) : Bool :=
  isAsciiUppercase ct.bytes.b2

/-- `is_safe_to_copy`: byte 3 is ASCII lowercase. -/
def ChunkType.is_safe_to_copy (ct : ChunkType) : Bool := isAsciiLowercase ct.bytes.b3

/-- One in-flight multi-byte UTF-8 sequence: the partial scalar value, the
number of continuation bytes still required, and the admissible range of the
next byte. Rust's `core::str` validation tightens that range after the
starters `E0`, `ED`, `F0` and `F4` to exclude overlong encodings, surrogates
and values above U+10FFFF. -/
structure Utf8Pending where
  acc : Nat
  need : Nat
  lo : Nat
  hi : Nat
deriving DecidableEq, Repr

/-- The byte-at-a-time validation loop of Rust `std::str::from_utf8`,
decoding to scalar values; `pend` is the multi-byte sequence in flight.
`none` models the `Utf8Error`. -/
def utf8Run (pend : Option Utf8Pending) : List Nat → Option (List Nat)
  | [] =>
    match pend with
    | none => some []
    | some _ => none
  | b :: rest =>
    match pend with
    | none =>
      if b ≤ 0x7F then (utf8Run none rest).map (fun t => b :: t)
      else if 0xC2 ≤ b ∧ b ≤ 0xDF then utf8Run (some ⟨b - 0xC0, 1, 0x80, 0xBF⟩) rest
      else if b = 0xE0 then utf8Run (some ⟨0, 2, 0xA0, 0xBF⟩) rest
      else if b = 0xED then utf8Run (some ⟨0xD, 2, 0x80, 0x9F⟩) rest
      else if 0xE1 ≤ b ∧ b ≤ 0xEF then utf8Run (some ⟨b - 0xE0, 2, 0x80, 0xBF⟩) rest
      else if b = 0xF0 then utf8Run (some ⟨0, 3, 0x90, 0xBF⟩) rest
      else if b = 0xF4 then utf8Run (some ⟨4, 3, 0x80, 0x8F⟩) rest
      else if 0xF1 ≤ b ∧ b ≤ 0xF3 then utf8Run (some ⟨b - 0xF0, 3, 0x80, 0xBF⟩) rest
      else none
    | some p =>
      if p.lo ≤ b ∧ b ≤ p.hi then
        if p.need = 1 then
          (utf8Run none rest).map (fun t => (p.acc * 0x40 + (b - 0x80)) :: t)
        else utf8Run (some ⟨p.acc * 0x40 + (b - 0x80), p.need - 1, 0x80, 0xBF⟩) rest
      else none

/-- Decode a UTF-8 byte sequence to its scalar values, following the
validation of Rust `std::str::from_utf8`; `none` models the `Utf8Error`
(and hence the panic of the `unwrap` inside `Display::fmt`). -/
def utf8Decode (l : List Nat) : Option (List Nat) := utf8Run none l

/-- `impl Display for ChunkType` / `to_string`:
`std::str::from_utf8(&self.bytes).unwrap()`; `none` models the panic a
failed decode would cause. -/
def ChunkType.to_string (ct : ChunkType) : Option (List Char) :=
  (utf8Decode ct.bytes.toList).map (fun t => t.map Char.ofNat)

/-- Modelled from the spec: an `is_valid` method is absent from the supplied
source file; spec §4.1 describes it as combining `is_reserved_bit_valid`
with the raw-byte-construction alphabetic invariant. -/
def ChunkType.is_valid (ct : ChunkType) : Bool :=
  ct.bytes.toList.all (fun b => isAsciiAlphabetic b) && ct.is_reserved_bit_valid

/-- Every all-ASCII byte list decodes to itself. -/
theorem utf8Decode_ascii (l : List Nat) (h : ∀ b ∈ l, b ≤ 127) :
    utf8Decode l = some l := by
  induction l with
  | nil => rfl
  | cons b t ih =>
    have hb : b ≤ 127 := h b (List.mem_cons_self b t)
    have ht : ∀ x ∈ t, x ≤ 127 := fun x hx => h x (List.mem_cons_of_mem b hx)
    have hstep : utf8Run none (b :: t) = (utf8Run none t).map (fun r => b :: r) := by
      conv_lhs => rw [utf8Run]
      rw [if_pos hb]
    unfold utf8Decode at ih ⊢
    rw [hstep, ih ht]
    rfl

/-- C6: the byte sequence `[82, 117, 49, 116]` ("Ru1t"), which contains the
ASCII digit `'1'` (49), is rejected by raw-byte construction. -/
theorem try_from_digit_byte_fails :
    ChunkType.try_from ⟨82, 117, 49, 116⟩ =
      Except.error (ChunkError.invalidChunkType ⟨82, 117, 49, 116⟩) := rfl

/-- C1 (counterexample): the bytes `[82, 117, 49, 116]` are all ASCII
alphanumeric, yet raw-byte construction rejects them — the code demands
alphabetic bytes, not alphanumeric ones as the claim states. -/
theorem try_from_alphanumeric_refuted :
    (Bytes4.toList ⟨82, 117, 49, 116⟩).all (fun b => isAsciiAlphanumeric b) = true ∧
    (ChunkType.try_from ⟨82, 117, 49, 116⟩).isOk = false := by decide

/-- C3: on the non-ASCII one-character text "é" (scalar 233, 2 UTF-8 bytes),
`from_str` fails — the non-ASCII arm is selected regardless of length — but
with the `Invalid string length. Expected 4, got 2` message instead of the
`non-ascii characters` message. -/
theorem from_str_non_ascii_gets_length_error :
    ChunkType.from_str [Char.ofNat 233] =
      Except.error (ChunkError.invalidStringLength 2) := rfl

/-- C4: on the all-ASCII 3-character text "abc", `from_str` fails — but with
the `non-ascii characters` message instead of the wrong-length message. -/
theorem from_str_wrong_length_gets_ascii_error :
    ChunkType.from_str ['a', 'b', 'c'] =
      Except.error ChunkError.containsNonAscii := rfl

/-- Every byte slot the text path writes stays below 128 when the text is
ASCII: either the truncated code point of an ASCII char, or the initial 0. -/
theorem charByteAt_le (s : List Char) (hs : isAsciiText s = true) (i : Nat) :
    charByteAt s i ≤ 127 := by
  cases hg : s[i]? with
  | none => simp [charByteAt, hg]
  | some c =>
    have hc : c ∈ s := by
      have hg2 : s.get? i = some c := by simpa [List.get?_eq_getElem?] using hg
      exact List.get?_mem hg2
    have h1 : c.toNat ≤ 127 := by simpa using List.all_eq_true.mp hs c hc
    have h2 : charByteAt s i = c.toNat % 256 := by simp [charByteAt, hg]
    rw [h2]
    exact le_trans (Nat.mod_le _ _) h1

/-- On a 4-character all-ASCII text, `from_str` takes the success arm and
copies each char's code point into its byte slot. -/
theorem from_str_ascii4_eq (c0 c1 c2 c3 : Char)
    (h0 : c0.toNat ≤ 127) (h1 : c1.toNat ≤ 127)
    (h2 : c2.toNat ≤ 127) (h3 : c3.toNat ≤ 127) :
    ChunkType.from_str [c0, c1, c2, c3] =
      Except.ok ⟨⟨c0.toNat, c1.toNat, c2.toNat, c3.toNat⟩⟩ := by
  have hA : isAsciiText [c0, c1, c2, c3] = true := by
    simp [isAsciiText, h0, h1, h2, h3]
  have hL : (utf8Len [c0, c1, c2, c3] == 4) = true := by
    simp [utf8Len, charUtf8Len, h0, h1, h2, h3]
  have e0 : c0.toNat % 256 = c0.toNat :=
    Nat.mod_eq_of_lt (Nat.lt_of_le_of_lt h0 (by norm_num))
  have e1 : c1.toNat % 256 = c1.toNat :=
    Nat.mod_eq_of_lt (Nat.lt_of_le_of_lt h1 (by norm_num))
  have e2 : c2.toNat % 256 = c2.toNat :=
    Nat.mod_eq_of_lt (Nat.lt_of_le_of_lt h2 (by norm_num))
  have e3 : c3.toNat % 256 = c3.toNat :=
    Nat.mod_eq_of_lt (Nat.lt_of_le_of_lt h3 (by norm_num))
  have hc : copyChars [c0, c1, c2, c3] = ⟨c0.toNat, c1.toNat, c2.toNat, c3.toNat⟩ := by
    simp [copyChars, charByteAt, e0, e1, e2, e3]
  unfold ChunkType.from_str
  rw [hA, hL, hc]

/-- C1 (amended): raw-byte construction succeeds, with `bytes` returning the
identical sequence, iff every byte is ASCII alphabetic; otherwise it fails
with the `Invalid chunk type` error carrying the rejected bytes. -/
theorem try_from_spec (bs : Bytes4) :
    ((∃ ct, ChunkType.try_from bs = Except.ok ct ∧ ct.bytes = bs) ↔
      ∀ b ∈ bs.toList, isAsciiAlphabetic b = true) ∧
    ((¬ ∀ b ∈ bs.toList, isAsciiAlphabetic b = true) ↔
      ChunkType.try_from bs = Except.error (ChunkError.invalidChunkType bs)) := by
  by_cases h : ∀ b ∈ bs.toList, isAsciiAlphabetic b = true
  · have hb : (bs.toList.all fun b => isAsciiAlphabetic b) = true := by
      simpa [List.all_eq_true] using h
    refine ⟨?_, ?_⟩ <;> simp [ChunkType.try_from, hb, h] <;> exact h
  · have hb : (bs.toList.all fun b => isAsciiAlphabetic b) = false := by
      rw [Bool.eq_false_iff]
      intro ht
      exact h (by simpa [List.all_eq_true] using ht)
    refine ⟨?_, ?_⟩ <;> simp [ChunkType.try_from, hb, h]

/-- C2: every text of exactly 4 characters, all of them ASCII, parses
through `from_str`, and rendering the result back through `Display` yields
exactly the original text. -/
theorem from_str_to_string_roundtrip (s : List Char)
    (hlen : s.length = 4) (hascii : ∀ c ∈ s, c.toNat ≤ 127) :
    ∃ ct, ChunkType.from_str s = Except.ok ct ∧ ct.to_string = some s := by
  match s, hlen with
  | [c0, c1, c2, c3], _ =>
    have h0 : c0.toNat ≤ 127 := hascii c0 (by simp)
    have h1 : c1.toNat ≤ 127 := hascii c1 (by simp)
    have h2 : c2.toNat ≤ 127 := hascii c2 (by simp)
    have h3 : c3.toNat ≤ 127 := hascii c3 (by simp)
    refine ⟨⟨⟨c0.toNat, c1.toNat, c2.toNat, c3.toNat⟩⟩, from_str_ascii4_eq c0 c1 c2 c3 h0 h1 h2 h3, ?_⟩
    have hd : utf8Decode [c0.toNat, c1.toNat, c2.toNat, c3.toNat] =
        some [c0.toNat, c1.toNat, c2.toNat, c3.toNat] := by
      refine utf8Decode_ascii _ ?_
      intro b hb
      simp only [List.mem_cons, List.not_mem_nil, or_false] at hb
      rcases hb with rfl | rfl | rfl | rfl <;> assumption
    show (utf8Decode (Bytes4.toList ⟨c0.toNat, c1.toNat, c2.toNat, c3.toNat⟩)).map
        (fun t => t.map Char.ofNat) = some [c0, c1, c2, c3]
    rw [show Bytes4.toList ⟨c0.toNat, c1.toNat, c2.toNat, c3.toNat⟩ =
        [c0.toNat, c1.toNat, c2.toNat, c3.toNat] from rfl, hd]
    simp [Char.ofNat_toNat]

/-- C2 (witness): the text "RuSt". -/
theorem from_str_to_string_roundtrip_witness :
    ∃ ct, ChunkType.from_str ['R', 'u', 'S', 't'] = Except.ok ct ∧
      ct.to_string = some ['R', 'u', 'S', 't'] :=
  from_str_to_string_roundtrip ['R', 'u', 'S', 't'] (by decide) (by decide)

/-- C5: `is_critical`, `is_public`, `is_reserved_bit_valid` hold iff bytes
0, 1, 2 respectively are ASCII uppercase letters; `is_safe_to_copy` holds
iff byte 3 is an ASCII lowercase letter. -/
theorem classification_spec (ct : ChunkType) :
    (ct.is_critical = true ↔ 65 ≤ ct.bytes.b0 ∧ ct.bytes.b0 ≤ 90) ∧
    (ct.is_public = true ↔ 65 ≤ ct.bytes.b1 ∧ ct.bytes.b1 ≤ 90) ∧
    (ct.is_reserved_bit_valid = true ↔ 65 ≤ ct.bytes.b2 ∧ ct.bytes.b2 ≤ 90) ∧
    (ct.is_safe_to_copy = true ↔ 97 ≤ ct.bytes.b3 ∧ ct.bytes.b3 ≤ 122) := by
  simp [ChunkType.is_critical, ChunkType.is_public, ChunkType.is_reserved_bit_valid,
    ChunkType.is_safe_to_copy, isAsciiUppercase, isAsciiLowercase]

/-- C7: every 4-character all-ASCII text parses, with each char's code point
copied in order into its byte slot — the text path enforces no alphabetic or
alphanumeric invariant on the bytes. -/
theorem from_str_copies_code_points (c0 c1 c2 c3 : Char)
    (h0 : c0.toNat ≤ 127) (h1 : c1.toNat ≤ 127)
    (h2 : c2.toNat ≤ 127) (h3 : c3.toNat ≤ 127) :
    ChunkType.from_str [c0, c1, c2, c3] =
      Except.ok ⟨⟨c0.toNat, c1.toNat, c2.toNat, c3.toNat⟩⟩ :=
  from_str_ascii4_eq c0 c1 c2 c3 h0 h1 h2 h3

/-- C7 (witness): the text "Ru1t", whose third character is a digit, still
parses, with bytes 82, 117, 49, 116. -/
theorem from_str_copies_code_points_witness :
    ChunkType.from_str ['R', 'u', '1', 't'] =
      Except.ok ⟨⟨82, 117, 49, 116⟩⟩ :=
  from_str_copies_code_points 'R' 'u' '1' 't' (by decide) (by decide) (by decide) (by decide)

/-- C8: `ChunkType` equality is structural, byte for byte, and the value
built from the bytes `[82, 117, 83, 116]` equals the one parsed from
"RuSt". -/
theorem chunk_type_eq_structural :
    (∀ x y : ChunkType,
        x = y ↔ x.bytes.b0 = y.bytes.b0 ∧ x.bytes.b1 = y.bytes.b1 ∧
          x.bytes.b2 = y.bytes.b2 ∧ x.bytes.b3 = y.bytes.b3) ∧
    ChunkType.try_from ⟨82, 117, 83, 116⟩ = ChunkType.from_str ['R', 'u', 'S', 't'] := by
  constructor
  · intro x y
    cases x with
    | mk bx =>
      cases y with
      | mk bz =>
        cases bx
        cases bz
        simp [ChunkType.mk.injEq, Bytes4.mk.injEq]
  · rfl

/-- C9: the spec-modelled `is_valid` is false whenever the reserved-bit byte
(byte 2) is ASCII lowercase, whatever the rest of the tag. -/
theorem is_valid_false_of_lowercase_reserved (ct : ChunkType)
    (h : isAsciiLowercase ct.bytes.b2 = true) :
    ct.is_valid = false := by
  have hup : isAsciiUppercase ct.bytes.b2 = false := by
    simp only [isAsciiLowercase, Bool.and_eq_true, decide_eq_true_eq] at h
    simp only [isAsciiUppercase, Bool.and_eq_false_iff, decide_eq_false_iff_not]
    omega
  simp [ChunkType.is_valid, ChunkType.is_reserved_bit_valid, hup]

/-- C9 (witness): the tag "Rust" — accepted by raw-byte construction, yet
invalid because its reserved-bit byte `'s'` (115) is lowercase. -/
theorem is_valid_false_of_lowercase_reserved_witness :
    (ChunkType.try_from ⟨82, 117, 115, 116⟩).isOk = true ∧
    isAsciiLowercase 115 = true ∧
    ChunkType.is_valid ⟨⟨82, 117, 115, 116⟩⟩ = false :=
  ⟨by decide, by decide,
    is_valid_false_of_lowercase_reserved ⟨⟨82, 117, 115, 116⟩⟩ (by decide)⟩

/-- C10: every `ChunkType` either constructor produces holds only ASCII
bytes (each at most 127), so the UTF-8 decode inside `Display` succeeds and
its `unwrap` cannot panic. -/
theorem constructed_to_string_never_panics (ct : ChunkType)
    (h : (∃ bs, ChunkType.try_from bs = Except.ok ct) ∨
         (∃ s, ChunkType.from_str s = Except.ok ct)) :
    (∀ b ∈ ct.bytes.toList, b ≤ 127) ∧ (ct.to_string).isSome = true := by
  have hb : ∀ b ∈ ct.bytes.toList, b ≤ 127 := by
    rcases h with ⟨bs, hbs⟩ | ⟨s, hs⟩
    · unfold ChunkType.try_from at hbs
      by_cases hall : (bs.toList.all fun b => isAsciiAlphabetic b) = true
      · rw [if_pos hall] at hbs
        injection hbs with h2
        subst h2
        intro b hbmem
        have halpha : isAsciiAlphabetic b = true := List.all_eq_true.mp hall b hbmem
        simp only [isAsciiAlphabetic, isAsciiUppercase, isAsciiLowercase,
          Bool.or_eq_true, Bool.and_eq_true, decide_eq_true_eq] at halpha
        omega
      · rw [if_neg hall] at hbs
        cases hbs
    · unfold ChunkType.from_str at hs
      split at hs
      · rename_i hA hL
        injection hs with h2
        subst h2
        intro b hbmem
        simp only [copyChars, Bytes4.toList, List.mem_cons, List.not_mem_nil,
          or_false] at hbmem
        rcases hbmem with rfl | rfl | rfl | rfl <;> exact charByteAt_le s hA _
      · cases hs
      · cases hs
  refine ⟨hb, ?_⟩
  unfold ChunkType.to_string
  rw [show utf8Decode ct.bytes.toList = some ct.bytes.toList from
    utf8Decode_ascii _ hb]
  rfl

/-- C10 (witness): the tag built from the bytes of "RuSt". -/
theorem constructed_to_string_never_panics_witness :
    (∀ b ∈ Bytes4.toList ⟨82, 117, 83, 116⟩, b ≤ 127) ∧
    (ChunkType.to_string ⟨⟨82, 117, 83, 116⟩⟩).isSome = true :=
  constructed_to_string_never_panics ⟨⟨82, 117, 83, 116⟩⟩
    (Or.inl ⟨⟨82, 117, 83, 116⟩, rfl⟩)
